import Mathlib

/-!
Verification development for the peer connection broker and the TerminalPage
of this repository.  The peerbroker implementation itself is not present in
the source fragment (only its test `TestDial`/`TestMain` is), so the broker
definitions below are modelled from the specification; the TerminalPage
definitions are translated from `site/src/pages/TerminalPage/TerminalPage.tsx`.
-/

namespace PeerBroker

/-- Modelled from the spec: a session description (offer or answer) with its
SDP payload, as exchanged over the signaling stream. -/
structure SessionDescription where
  kind : String
  sdp : String
deriving DecidableEq, Repr

/-- Modelled from the spec: one discovered ICE candidate,
`{candidate: string, sdpMid?: string, sdpMLineIndex?: int}`. -/
structure ICECandidate where
  candidate : String
  sdpMid : Option String
  sdpMLineIndex : Option Int
deriving DecidableEq, Repr

/-- Modelled from the spec: the `error` record of a NegotiationMessage; its
`message` field may be missing (an empty error record is malformed). -/
structure ErrorRecord where
  message : Option String
deriving DecidableEq, Repr

/-- Modelled from the spec: the wire encoding of a NegotiationMessage — a
record with exactly one of the fields `description`, `candidate`, `error`
populated; anything else is malformed. -/
structure WireMessage where
  description : Option SessionDescription
  candidate : Option ICECandidate
  error : Option ErrorRecord
deriving DecidableEq, Repr

/-- The result of classifying a received wire message. -/
inductive Parsed where
  | description (d : SessionDescription)
  | candidate (c : ICECandidate)
  | negotiationError (msg : String)
  | malformed
deriving DecidableEq, Repr

/-- Modelled from the spec: exactly one variant must be populated per message,
and an `error` record must carry a message; otherwise the message is
malformed. -/
def WireMessage.parse (m : WireMessage) : Parsed :=
  match m.description, m.candidate, m.error with
  | some d, none, none => .description d
  | none, some c, none => .candidate c
  | none, none, some e =>
    match e.message with
    | some s => .negotiationError s
    | none => .malformed
  | _, _, _ => .malformed

/-- A wire message carrying only a session description. -/
def descMsg (d : SessionDescription) : WireMessage :=
  ⟨some d, none, none⟩

/-- A wire message carrying only an ICE candidate. -/
def candMsg (c : ICECandidate) : WireMessage :=
  ⟨none, some c, none⟩

/-- A wire message carrying only an error record. -/
def errMsg (e : ErrorRecord) : WireMessage :=
  ⟨none, none, some e⟩

/-- The error taxonomy of the broker. -/
inductive BrokerError where
  | invalidArgument
  | protocolError
  | negotiationTimeout
  | negotiationFailed
  | listenerClosed
  | notConnected
  | unresponsive
deriving DecidableEq, Repr

/-- An operation the Negotiator performs on the peer-connection engine. -/
inductive EngineOp where
  | setRemoteDescription (d : SessionDescription)
  | addICECandidate (c : ICECandidate)
deriving DecidableEq, Repr

/-- The receive-side state of one negotiation: whether a remote description
has been applied yet, and the ordered buffer of candidates that arrived
before it. -/
structure RecvState where
  remoteDescApplied : Bool
  pending : List ICECandidate
deriving DecidableEq, Repr

/-- The receive-side state at the start of a negotiation. -/
def RecvState.init : RecvState :=
  ⟨false, []⟩

/-- Modelled from the spec: applying one incoming NegotiationMessage.  A
remote description is applied to the engine and the pending buffer flushed in
receipt order; a second description is a protocol error; a candidate is
applied if a remote description exists and buffered otherwise; a
NegotiationError or malformed message aborts with `protocolError`. -/
def applyIncoming (s : RecvState) (m : WireMessage) :
    Except BrokerError (RecvState × List EngineOp) :=
  match m.parse with
  | .description d =>
    if s.remoteDescApplied then
      .error .protocolError
    else
      .ok (⟨true, []⟩, .setRemoteDescription d :: s.pending.map .addICECandidate)
  | .candidate c =>
    if s.remoteDescApplied then
      .ok (s, [.addICECandidate c])
    else
      .ok (⟨s.remoteDescApplied, s.pending ++ [c]⟩, [])
  | .negotiationError _ => .error .protocolError
  | .malformed => .error .protocolError

/-- Running the receive side over a list of incoming messages, collecting the
engine operations performed, in order. -/
def runRecv (s : RecvState) : List WireMessage →
    Except BrokerError (RecvState × List EngineOp)
  | [] => .ok (s, [])
  | m :: ms =>
    match applyIncoming s m with
    | .error e => .error e
    | .ok (s', ops) =>
      match runRecv s' ms with
      | .error e => .error e
      | .ok (s'', ops') => .ok (s'', ops ++ ops')

/-- The caller-visible state of a Conn handle: whether the connection ever
reached `Connected`, whether `Close()` has been called, and whether the
engine has failed on its own. -/
structure ConnState where
  reachedConnected : Bool
  closed : Bool
  engineFailed : Bool
deriving DecidableEq, Repr

/-- Modelled from the spec: `Ping()` is valid only once the connection has
reached `Connected` and before `Close()` — otherwise `notConnected`; between
those points it waits for an echo (`none` = timed out) and returns the round
trip, failing `unresponsive` on timeout or engine failure. -/
def ping (s : ConnState) (echo : Option Nat) : Except BrokerError Nat :=
  if !s.reachedConnected || s.closed then .error .notConnected
  else if s.engineFailed then .error .unresponsive
  else
    match echo with
    | none => .error .unresponsive
    | some rtt => .ok rtt

/-- Modelled from the spec: the echo a liveness probe receives from its peer
over the established connection: the round trip `rtt` while the peer end is
open and healthy, nothing once the peer has closed or failed. -/
def probeEcho (peer : ConnState) (rtt : Nat) : Option Nat :=
  if peer.closed || peer.engineFailed then none else some rtt

/-- Modelled from the spec: one shared signaling stream pairing a dialing
client and a listening server; when the negotiation reaches `Connected`,
`Dial` returns the client Conn and `Accept` returns the server Conn, both
fresh (connected, not closed, engine healthy); otherwise both sides fail. -/
def negotiatePair (engineConnects : Bool) :
    Except BrokerError ConnState × Except BrokerError ConnState :=
  if engineConnects then
    (.ok ⟨true, false, false⟩, .ok ⟨true, false, false⟩)
  else
    (.error .negotiationFailed, .error .negotiationFailed)

/-- The send side of one negotiation: the outgoing messages emitted so far in
order, all serialized through the single stream owner, and whether the local
description has been sent. -/
structure SendState where
  sent : List WireMessage
  localDescSent : Bool
deriving DecidableEq, Repr

/-- Modelled from the spec: an Offerer immediately creates its local
SessionDescription at `Start` and sends it as the first message. -/
def startOfferer (d : SessionDescription) : SendState :=
  ⟨[descMsg d], true⟩

/-- Modelled from the spec: each locally discovered candidate is sent as one
whole outgoing message through the serialized writer, never interleaving
mid-message with another send. -/
def onLocalCandidate (s : SendState) (c : ICECandidate) : SendState :=
  ⟨s.sent ++ [candMsg c], s.localDescSent⟩

/-- The outgoing message trace of an Offerer negotiation whose engine
discovers the local candidates `cands`, in that order. -/
def offererTrace (d : SessionDescription) (cands : List ICECandidate) :
    List WireMessage :=
  (cands.foldl onLocalCandidate (startOfferer d)).sent

/-- The terminal outcome of one negotiation. -/
inductive NegOutcome where
  | connected
  | failed (e : BrokerError)
  | aborted
deriving DecidableEq, Repr

/-- Whether an outcome is a terminal failure (protocol error, timeout, engine
failure or cancellation) rather than a success. -/
def NegOutcome.isFailure : NegOutcome → Bool
  | .connected => false
  | _ => true

/-- The lifecycle state of one negotiation: its two background activities
(stream reader, local-candidate listener), its resources, and its outcome. -/
structure NegLife where
  readerRunning : Bool
  candListenerRunning : Bool
  streamOpen : Bool
  engineHeld : Bool
  outcome : Option NegOutcome
deriving DecidableEq, Repr

/-- A freshly started negotiation: both activities running, resources held,
no outcome yet. -/
def NegLife.init : NegLife :=
  ⟨true, true, true, true, none⟩

/-- The lifecycle events one negotiation reacts to. -/
inductive NegEvent where
  | engineConnected
  | engineFailed
  | protocolFault
  | deadlineElapsed
  | cancel
  | closeCall
  | streamMessage
deriving DecidableEq, Repr

/-- Modelled from the spec: terminal teardown of a negotiation — the stream
is closed, the engine released, and both background activities are awaited
(not merely signaled) before the owning call returns. -/
def teardown (o : NegOutcome) : NegLife :=
  ⟨false, false, false, false, some o⟩

/-- Modelled from the spec: one lifecycle step of a negotiation.  Every path
to a terminal failure or cancellation performs full teardown; reaching
`Connected` hands the still-open stream and engine to the Conn; `closeCall`
(`Conn.Close()` or a repeated close) always leaves no activity running and is
idempotent on terminal states. -/
def negLifeStep (s : NegLife) (e : NegEvent) : NegLife :=
  match s.outcome with
  | some o =>
    match e with
    | .closeCall => ⟨false, false, false, false, some o⟩
    | _ => s
  | none =>
    match e with
    | .engineConnected =>
      ⟨s.readerRunning, s.candListenerRunning, s.streamOpen, s.engineHeld,
        some .connected⟩
    | .engineFailed => teardown (.failed .negotiationFailed)
    | .protocolFault => teardown (.failed .protocolError)
    | .deadlineElapsed => teardown (.failed .negotiationTimeout)
    | .cancel => teardown .aborted
    | .closeCall => teardown .aborted
    | .streamMessage => s

/-- What one `Accept()` call observes. -/
inductive AcceptOutcome where
  | conn (c : ConnState)
  | err (e : BrokerError)
  | blocked
deriving DecidableEq, Repr

/-- The state of one Listener: whether it is closed, its in-flight
negotiations, the queue of completed connections awaiting `Accept`, and the
number of currently blocked `Accept` callers. -/
structure ListenerState where
  closed : Bool
  inflight : List NegLife
  ready : List ConnState
  waiting : Nat
deriving DecidableEq, Repr

/-- Modelled from the spec: an inbound negotiation request spawns one
independent Answerer negotiation, unless the listener is closed. -/
def onInbound (s : ListenerState) : ListenerState :=
  if s.closed then s
  else ⟨s.closed, s.inflight ++ [NegLife.init], s.ready, s.waiting⟩

/-- Modelled from the spec: `Accept()` returns `listenerClosed` on a closed
listener, otherwise the next completed connection first-ready-first-served,
otherwise blocks (registering the caller as a waiter). -/
def acceptStep (s : ListenerState) : ListenerState × AcceptOutcome :=
  if s.closed then (s, .err .listenerClosed)
  else
    match s.ready with
    | c :: rest => (⟨s.closed, s.inflight, rest, s.waiting⟩, .conn c)
    | [] => (⟨s.closed, s.inflight, s.ready, s.waiting + 1⟩, .blocked)

/-- Modelled from the spec: `Close()` stops acceptance of new inbound
negotiations, cancels every in-flight negotiation, and wakes every blocked
`Accept` caller with `listenerClosed` (the returned list is the error each
woken waiter observes). -/
def listenerClose (s : ListenerState) : ListenerState × List BrokerError :=
  (⟨true, s.inflight.map (fun n => negLifeStep n .cancel), s.ready, 0⟩,
    List.replicate s.waiting .listenerClosed)

/-- The resource-accounted result of one negotiation run: the terminal error
if it aborted, and whether the stream was closed and the engine released. -/
structure NegResult where
  fault : Option BrokerError
  streamClosed : Bool
  engineReleased : Bool
deriving DecidableEq, Repr

/-- Modelled from the spec: the receive side of one negotiation with resource
accounting — aborting on a bad message closes the stream and releases the
engine, and no further message of that run is processed. -/
def runNegotiation : RecvState → List WireMessage → NegResult × List EngineOp
  | _, [] => (⟨none, false, false⟩, [])
  | s, m :: ms =>
    match applyIncoming s m with
    | .error e => (⟨some e, true, true⟩, [])
    | .ok (s', ops) =>
      let r := runNegotiation s' ms
      (r.1, ops ++ r.2)

/-- Modelled from the spec: aborting negotiation `i` of a listener's
in-flight set tears down exactly that negotiation — each negotiation's
engine and buffer are exclusively owned and never shared. -/
def abortOne (sys : List NegLife) (i : Nat) (e : BrokerError) : List NegLife :=
  sys.set i (teardown (.failed e))

/-- Modelled from the spec: driving one negotiation tick by tick.
`connectAt` is the tick at which the engine would reach `Connected` (`none` =
the engine never makes progress); `fuel` is the number of ticks left before
the configured deadline.  The run ends with `negotiationTimeout` when the
deadline elapses before `Connected`. -/
def runTicks (connectAt : Option Nat) : Nat → Nat → Except BrokerError Nat
  | now, 0 =>
    if connectAt = some now then .ok now else .error .negotiationTimeout
  | now, fuel + 1 =>
    if connectAt = some now then .ok now
    else runTicks connectAt (now + 1) fuel

/-- Modelled from the spec: `Dial` with a configured negotiation deadline
bounds the whole `Start` to terminal-state interval by `deadline` ticks. -/
def dialWithDeadline (deadline : Nat) (connectAt : Option Nat) :
    Except BrokerError Nat :=
  runTicks connectAt 0 deadline

end PeerBroker

namespace TerminalPage

/-- The URL search parameters the TerminalPage reads: the `reconnect`
parameter, when present. -/
structure SearchParams where
  reconnect : Option String
deriving DecidableEq, Repr

/-- `searchParams.get("reconnect") ?? uuidv4()`: the reconnection token is
the URL's `reconnect` parameter when present, otherwise the freshly generated
UUIDv4 `fresh`. -/
def reconnectionToken (params : SearchParams) (fresh : String) : String :=
  params.reconnect.getD fresh

/-- One `navigate` call issued by the reconnect effect: the new `reconnect`
search value and whether history is replaced rather than pushed. -/
structure NavCall where
  reconnect : String
  replace : Bool
deriving DecidableEq, Repr

/-- The effect that updates the reconnection token into the URL: if the URL
already carries exactly the token it does nothing; otherwise it sets
`reconnect` to the token and navigates with `replace: true`. -/
def updateReconnectEffect (params : SearchParams) (token : String) :
    Option NavCall :=
  if params.reconnect = some token then none
  else some ⟨token, true⟩

/-- The search parameters after the optional navigation. -/
def applyNav (params : SearchParams) : Option NavCall → SearchParams
  | none => params
  | some nav => ⟨some nav.reconnect⟩

/-- The websocket events the terminal effect installs handlers for. -/
inductive WSEvent where
  | wsOpen
  | wsError
  | wsClose
  | wsMessage
deriving DecidableEq, Repr

/-- Whether an event is a data message (whose handler only writes terminal
output). -/
def WSEvent.isMessage : WSEvent → Bool
  | .wsMessage => true
  | _ => false

/-- The xterm options the connection effect mutates. -/
structure TermOptions where
  disableStdin : Bool
  windowsMode : Bool
deriving DecidableEq, Repr

/-- `terminal.options.disableStdin = true`: input is disabled the moment a
connection attempt begins, before the websocket is opened. -/
def connectStart (t : TermOptions) : TermOptions :=
  ⟨true, t.windowsMode⟩

/-- The websocket handlers: `open` re-enables stdin (and sets `windowsMode`
from the agent's operating system), `error` and `close` disable stdin, and
`message` only writes received data to the terminal. -/
def handleWSEvent (isWindows : Bool) (t : TermOptions) : WSEvent → TermOptions
  | .wsOpen => ⟨false, isWindows⟩
  | .wsError => ⟨true, t.windowsMode⟩
  | .wsClose => ⟨true, t.windowsMode⟩
  | .wsMessage => t

end TerminalPage

namespace PeerBroker

/-- Candidate messages received while no remote description is applied are
buffered in receipt order and perform no engine operation. -/
theorem runRecv_cands_buffered (cs : List ICECandidate) (p : List ICECandidate)
    (rest : List WireMessage) :
    runRecv ⟨false, p⟩ (cs.map candMsg ++ rest) = runRecv ⟨false, p ++ cs⟩ rest := by
  induction cs generalizing p with
  | nil => simp
  | cons c cs ih =>
    simp only [List.map_cons, List.cons_append, runRecv, applyIncoming,
      WireMessage.parse, candMsg, Bool.false_eq_true, if_false, List.append_eq]
    rw [ih (p ++ [c])]
    simp only [List.append_assoc, List.singleton_append]
    cases runRecv ⟨false, p ++ c :: cs⟩ rest with
    | error e => rfl
    | ok r => rfl

/-- Candidate messages received after the remote description is applied are
applied to the engine immediately, in arrival order. -/
theorem runRecv_cands_applied (cs : List ICECandidate) (p : List ICECandidate) :
    runRecv ⟨true, p⟩ (cs.map candMsg) =
      .ok (⟨true, p⟩, cs.map EngineOp.addICECandidate) := by
  induction cs with
  | nil => rfl
  | cons c cs ih =>
    simp only [List.map_cons, runRecv, applyIncoming, WireMessage.parse, candMsg,
      if_true]
    rw [ih]
    rfl

/-- C1: for every interleaving of one incoming remote SessionDescription with
N incoming ICE candidates on one signaling stream (an interleaving is
`cs1 ++ [description] ++ cs2`), the engine-operation trace is exactly one
`setRemoteDescription` followed by all N candidates in their arrival order:
no candidate reaches the engine before the remote description, and
early-arriving candidates (`cs1`) are flushed in receipt order when the
description is applied. -/
theorem c1_candidate_ordering (d : SessionDescription)
    (cs1 cs2 : List ICECandidate) :
    runRecv RecvState.init
        (cs1.map candMsg ++ descMsg d :: cs2.map candMsg) =
      .ok (⟨true, []⟩,
        .setRemoteDescription d ::
          (cs1 ++ cs2).map EngineOp.addICECandidate) := by
  have h0 : RecvState.init = ⟨false, []⟩ := rfl
  rw [h0, runRecv_cands_buffered cs1 [] (descMsg d :: cs2.map candMsg)]
  simp only [List.nil_append, runRecv, applyIncoming, WireMessage.parse, descMsg,
    Bool.false_eq_true, if_false]
  rw [runRecv_cands_applied cs2 []]
  simp [List.map_append]

/-- C2: for every pair of endpoints sharing one signaling stream whose `Dial`
and `Listen`+`Accept` both return successfully, `Ping()` on each returned
Conn succeeds (returns a round-trip duration with no error) before either
side calls `Close()`. -/
theorem c2_ping_succeeds_after_connect (engineConnects : Bool)
    (cc sc : ConnState) (rtt : Nat)
    (hd : (negotiatePair engineConnects).1 = .ok cc)
    (ha : (negotiatePair engineConnects).2 = .ok sc) :
    ping cc (probeEcho sc rtt) = .ok rtt ∧
    ping sc (probeEcho cc rtt) = .ok rtt := by
  cases engineConnects with
  | false => simp [negotiatePair] at hd
  | true =>
    simp only [negotiatePair, if_true] at hd ha
    obtain rfl : ConnState.mk true false false = cc := by
      exact Except.ok.inj hd
    obtain rfl : ConnState.mk true false false = sc := by
      exact Except.ok.inj ha
    exact ⟨rfl, rfl⟩

/-- Witness for C2 at a concrete successful negotiation. -/
theorem c2_ping_succeeds_after_connect_witness :
    ping ⟨true, false, false⟩ (probeEcho ⟨true, false, false⟩ 1) = .ok 1 ∧
    ping ⟨true, false, false⟩ (probeEcho ⟨true, false, false⟩ 1) = .ok 1 :=
  c2_ping_succeeds_after_connect true ⟨true, false, false⟩ ⟨true, false, false⟩ 1
    rfl rfl

/-- C8: `Ping()` before reaching `Connected` or after `Close()` returns
`notConnected`; between those points it returns the round-trip duration, or
`unresponsive` on echo timeout or engine failure. -/
theorem c8_ping_lifecycle (s : ConnState) (echo : Option Nat) :
    ((s.reachedConnected = false ∨ s.closed = true) →
      ping s echo = .error .notConnected) ∧
    (s.reachedConnected = true → s.closed = false →
      (s.engineFailed = true → ping s echo = .error .unresponsive) ∧
      (s.engineFailed = false → echo = none →
        ping s echo = .error .unresponsive) ∧
      (s.engineFailed = false → ∀ rtt, echo = some rtt →
        ping s echo = .ok rtt)) := by
  obtain ⟨a, b, c⟩ := s
  cases a <;> cases b <;> cases c <;> cases echo <;> simp [ping]

/-- Witness for C8 at concrete connection states. -/
theorem c8_ping_lifecycle_witness :
    ping ⟨false, false, false⟩ (some 2) = .error .notConnected ∧
    ping ⟨true, false, false⟩ (some 2) = .ok 2 :=
  ⟨(c8_ping_lifecycle ⟨false, false, false⟩ (some 2)).1 (Or.inl rfl),
   ((c8_ping_lifecycle ⟨true, false, false⟩ (some 2)).2 rfl rfl).2.2 rfl 2 rfl⟩

/-- Folding local-candidate sends appends one whole candidate message per
discovered candidate, in discovery order. -/
theorem foldl_onLocalCandidate (cands : List ICECandidate)
    (l : List WireMessage) (b : Bool) :
    (cands.foldl onLocalCandidate ⟨l, b⟩).sent = l ++ cands.map candMsg := by
  induction cands generalizing l with
  | nil => simp
  | cons c cs ih =>
    simp only [List.foldl_cons, onLocalCandidate, List.map_cons]
    rw [ih]
    simp

/-- C7: in the Offerer role the local SessionDescription is the first message
sent on the outgoing signaling stream, every locally discovered candidate is
sent as a whole message after it, and no other message kind appears. -/
theorem c7_offerer_description_first (d : SessionDescription)
    (cands : List ICECandidate) :
    offererTrace d cands = descMsg d :: cands.map candMsg ∧
    (offererTrace d cands).head? = some (descMsg d) ∧
    ∀ m ∈ (offererTrace d cands).tail, ∃ c, m = candMsg c := by
  have h : offererTrace d cands = descMsg d :: cands.map candMsg := by
    unfold offererTrace startOfferer
    rw [foldl_onLocalCandidate]
    simp
  refine ⟨h, by rw [h]; rfl, ?_⟩
  rw [h]
  intro m hm
  simp only [List.tail_cons, List.mem_map] at hm
  obtain ⟨c, _, rfl⟩ := hm
  exact ⟨c, rfl⟩

/-- Witness for C7 at a concrete offer and candidate list. -/
theorem c7_offerer_description_first_witness :
    offererTrace ⟨"offer", "sdp"⟩ [⟨"cand", none, none⟩] =
      descMsg ⟨"offer", "sdp"⟩ :: [candMsg ⟨"cand", none, none⟩] ∧
    ∃ c, candMsg ⟨"cand", none, none⟩ = candMsg c := by
  constructor
  · exact (c7_offerer_description_first ⟨"offer", "sdp"⟩ [⟨"cand", none, none⟩]).1
  · exact (c7_offerer_description_first ⟨"offer", "sdp"⟩
      [⟨"cand", none, none⟩]).2.2 (candMsg ⟨"cand", none, none⟩) (by decide)

/-- `closeCall` always leaves a terminal state with both background
activities stopped, whatever the prior state. -/
theorem negLifeStep_close_stops (s : NegLife) :
    (negLifeStep s .closeCall).outcome.isSome = true ∧
    (negLifeStep s .closeCall).readerRunning = false ∧
    (negLifeStep s .closeCall).candListenerRunning = false := by
  obtain ⟨r, c, so, eh, o⟩ := s
  cases o <;> simp [negLifeStep, teardown]

/-- Once a negotiation is terminal with both activities stopped, every
further lifecycle event keeps it so: activities never restart. -/
theorem negLifeStep_preserves_stopped (s : NegLife) (e : NegEvent)
    (h : s.outcome.isSome = true ∧ s.readerRunning = false ∧
      s.candListenerRunning = false) :
    (negLifeStep s e).outcome.isSome = true ∧
    (negLifeStep s e).readerRunning = false ∧
    (negLifeStep s e).candListenerRunning = false := by
  obtain ⟨r, c, so, eh, o⟩ := s
  cases o with
  | none => simp at h
  | some o0 => cases e <;> simp_all [negLifeStep, teardown]

/-- Terminal-and-stopped is preserved by any whole event trace. -/
theorem foldl_negLifeStep_stopped (es : List NegEvent) (s : NegLife)
    (h : s.outcome.isSome = true ∧ s.readerRunning = false ∧
      s.candListenerRunning = false) :
    (es.foldl negLifeStep s).outcome.isSome = true ∧
    (es.foldl negLifeStep s).readerRunning = false ∧
    (es.foldl negLifeStep s).candListenerRunning = false := by
  induction es generalizing s with
  | nil => exact h
  | cons e es ih => exact ih _ (negLifeStep_preserves_stopped s e h)

/-- One lifecycle step preserves the invariant that a terminal failure or
cancellation has both activities stopped. -/
theorem negLifeStep_preserves_failquiet (s : NegLife) (e : NegEvent)
    (h : ∀ o, s.outcome = some o → o.isFailure = true →
      s.readerRunning = false ∧ s.candListenerRunning = false) :
    ∀ o, (negLifeStep s e).outcome = some o → o.isFailure = true →
      (negLifeStep s e).readerRunning = false ∧
      (negLifeStep s e).candListenerRunning = false := by
  obtain ⟨r, c, so, eh, oo⟩ := s
  cases oo with
  | none =>
    cases e <;> intro o ho hf <;>
      simp_all [negLifeStep, teardown, NegOutcome.isFailure]
    all_goals subst ho
    all_goals simp [NegOutcome.isFailure] at hf
  | some o0 =>
    cases e <;> intro o ho hf <;> simp_all [negLifeStep, teardown]

/-- The terminal-failure-implies-stopped invariant holds along any whole
event trace. -/
theorem foldl_negLifeStep_failquiet (es : List NegEvent) (s : NegLife)
    (h : ∀ o, s.outcome = some o → o.isFailure = true →
      s.readerRunning = false ∧ s.candListenerRunning = false) :
    ∀ o, (es.foldl negLifeStep s).outcome = some o → o.isFailure = true →
      (es.foldl negLifeStep s).readerRunning = false ∧
      (es.foldl negLifeStep s).candListenerRunning = false := by
  induction es generalizing s with
  | nil => exact h
  | cons e es ih => exact ih _ (negLifeStep_preserves_failquiet s e h)

/-- C3: after `Conn.Close()` (the `closeCall` event) — whatever events follow
— and after any terminal failure (protocol error, timeout, engine failure,
cancellation), neither the stream reader nor the local-candidate listener of
that negotiation is still running. -/
theorem c3_no_residual_activity :
    (∀ (es tail : List NegEvent),
      ((es ++ NegEvent.closeCall :: tail).foldl negLifeStep
          NegLife.init).readerRunning = false ∧
      ((es ++ NegEvent.closeCall :: tail).foldl negLifeStep
          NegLife.init).candListenerRunning = false) ∧
    (∀ (es : List NegEvent) (o : NegOutcome),
      (es.foldl negLifeStep NegLife.init).outcome = some o →
      o.isFailure = true →
      (es.foldl negLifeStep NegLife.init).readerRunning = false ∧
      (es.foldl negLifeStep NegLife.init).candListenerRunning = false) := by
  constructor
  · intro es tail
    rw [List.foldl_append, List.foldl_cons]
    have h := foldl_negLifeStep_stopped tail
      (negLifeStep (es.foldl negLifeStep NegLife.init) .closeCall)
      (negLifeStep_close_stops (es.foldl negLifeStep NegLife.init))
    exact ⟨h.2.1, h.2.2⟩
  · intro es o ho hf
    exact foldl_negLifeStep_failquiet es NegLife.init
      (by intro o' ho' _; simp [NegLife.init] at ho') o ho hf

/-- Witness for C3 at a concrete failing trace. -/
theorem c3_no_residual_activity_witness :
    ([NegEvent.protocolFault].foldl negLifeStep NegLife.init).readerRunning =
        false ∧
    ([NegEvent.protocolFault].foldl negLifeStep
        NegLife.init).candListenerRunning = false :=
  c3_no_residual_activity.2 [NegEvent.protocolFault]
    (.failed .protocolError) rfl rfl

/-- Cancelling a negotiation always leaves it terminal: a live one becomes
`aborted` (with full teardown), a terminal one is unchanged. -/
theorem negLifeStep_cancel_terminal (n : NegLife) :
    (negLifeStep n .cancel).outcome.isSome = true := by
  obtain ⟨r, c, so, eh, o⟩ := n
  cases o <;> simp [negLifeStep, teardown]

/-- Cancelling twice is the same as cancelling once. -/
theorem negLifeStep_cancel_idem (n : NegLife) :
    negLifeStep (negLifeStep n .cancel) .cancel = negLifeStep n .cancel := by
  obtain ⟨r, c, so, eh, o⟩ := n
  cases o <;> simp [negLifeStep, teardown]

/-- C4: `Listener.Close()` stops acceptance of new inbound negotiations,
cancels every in-flight negotiation, wakes every blocked `Accept` with
`listenerClosed`, makes every subsequent `Accept` return `listenerClosed`,
and is idempotent. -/
theorem c4_listener_close (s : ListenerState) :
    (listenerClose s).1.closed = true ∧
    onInbound (listenerClose s).1 = (listenerClose s).1 ∧
    (∀ n ∈ (listenerClose s).1.inflight, n.outcome.isSome = true) ∧
    (listenerClose s).2 = List.replicate s.waiting .listenerClosed ∧
    (acceptStep (listenerClose s).1).2 = .err .listenerClosed ∧
    listenerClose (listenerClose s).1 = ((listenerClose s).1, []) := by
  refine ⟨rfl, by simp [onInbound, listenerClose], ?_, rfl,
    by simp [acceptStep, listenerClose], ?_⟩
  · intro n hn
    simp only [listenerClose, List.mem_map] at hn
    obtain ⟨n0, _, rfl⟩ := hn
    exact negLifeStep_cancel_terminal n0
  · simp only [listenerClose, List.map_map, List.replicate_zero]
    congr 1
    · congr 1
      apply List.map_congr_left
      intro n _
      exact negLifeStep_cancel_idem n

/-- A NegotiationError or malformed wire message makes the incoming-message
handler abort with `protocolError`, whatever the receive state. -/
theorem applyIncoming_bad (s : RecvState) (m : WireMessage)
    (h : m.parse = .malformed ∨ ∃ msg, m.parse = .negotiationError msg) :
    applyIncoming s m = .error .protocolError := by
  rcases h with h | ⟨msg, h⟩ <;> simp [applyIncoming, h]

/-- A cleanly processed prefix of a negotiation's incoming messages
contributes its engine operations and leaves the rest of the run to the
resulting state. -/
theorem runNegotiation_after_clean_run (pre : List WireMessage) (s s' : RecvState)
    (ops : List EngineOp) (tl : List WireMessage)
    (h : runRecv s pre = .ok (s', ops)) :
    runNegotiation s (pre ++ tl) =
      ((runNegotiation s' tl).1, ops ++ (runNegotiation s' tl).2) := by
  induction pre generalizing s ops with
  | nil =>
    simp only [runRecv] at h
    obtain ⟨rfl, rfl⟩ : s = s' ∧ [] = ops := by
      have := Except.ok.inj h
      exact ⟨congrArg Prod.fst this, congrArg Prod.snd this⟩
    simp
  | cons m ms ih =>
    simp only [runRecv] at h
    cases ha : applyIncoming s m with
    | error e => simp [ha] at h
    | ok p =>
      obtain ⟨s1, ops1⟩ := p
      simp only [ha] at h
      cases hr : runRecv s1 ms with
      | error e => simp [hr] at h
      | ok q =>
        obtain ⟨s2, ops2⟩ := q
        simp only [hr] at h
        obtain ⟨h1, h2⟩ : s2 = s' ∧ ops1 ++ ops2 = ops := by
          have := Except.ok.inj h
          exact ⟨congrArg Prod.fst this, congrArg Prod.snd this⟩
        subst h1
        subst h2
        have hih := ih s1 ops2 hr
        simp only [List.cons_append, runNegotiation, ha, hih]
        simp
        exact ⟨by rw [hih], by rw [hih]⟩

/-- C5: a NegotiationError message or a malformed message (empty error
record, or none of the three variants populated) received at any point of a
negotiation aborts it with `protocolError`, closes the stream and releases
the engine, ignoring any later message of that negotiation; aborting one
negotiation of a listener leaves every other negotiation untouched. -/
theorem c5_protocol_abort (pre : List WireMessage) (s' : RecvState)
    (ops : List EngineOp) (b : WireMessage) (rest : List WireMessage)
    (sys : List NegLife) (i j : Nat)
    (hpre : runRecv RecvState.init pre = .ok (s', ops))
    (hb : b.parse = .malformed ∨ ∃ msg, b.parse = .negotiationError msg)
    (hj : i ≠ j) :
    (runNegotiation RecvState.init (pre ++ b :: rest)).1 =
      ⟨some .protocolError, true, true⟩ ∧
    (abortOne sys i .protocolError)[j]? = sys[j]? := by
  constructor
  · rw [runNegotiation_after_clean_run pre RecvState.init s' ops (b :: rest) hpre]
    simp [runNegotiation, applyIncoming_bad s' b hb]
  · exact List.getElem?_set_ne hj

/-- Witness for C5: an empty error record right after a clean offer. -/
theorem c5_protocol_abort_witness :
    (runNegotiation RecvState.init
        [descMsg ⟨"offer", "sdp"⟩, errMsg ⟨none⟩]).1 =
      ⟨some .protocolError, true, true⟩ ∧
    (abortOne [NegLife.init, NegLife.init] 0 .protocolError)[1]? =
      [NegLife.init, NegLife.init][1]? :=
  c5_protocol_abort [descMsg ⟨"offer", "sdp"⟩] ⟨true, []⟩
    [.setRemoteDescription ⟨"offer", "sdp"⟩] (errMsg ⟨none⟩) []
    [NegLife.init, NegLife.init] 0 1 rfl (Or.inl rfl) (by decide)

/-- A negotiation whose engine never progresses times out. -/
theorem runTicks_no_progress (fuel now : Nat) :
    runTicks none now fuel = .error .negotiationTimeout := by
  induction fuel generalizing now with
  | zero => simp [runTicks]
  | succ f ih => simp [runTicks, ih]

/-- A negotiation whose engine would connect only after the deadline times
out. -/
theorem runTicks_too_late (fuel now t : Nat) (h : now + fuel < t) :
    runTicks (some t) now fuel = .error .negotiationTimeout := by
  induction fuel generalizing now with
  | zero =>
    have hne : t ≠ now := by omega
    simp [runTicks, Option.some.injEq, hne]
  | succ f ih =>
    have hne : t ≠ now := by omega
    simp only [runTicks]
    rw [if_neg (fun hc => hne (Option.some.inj hc))]
    exact ih (now + 1) (by omega)

/-- A negotiation whose engine connects within the deadline succeeds at that
tick. -/
theorem runTicks_in_time (fuel now t : Nat) (h1 : now ≤ t)
    (h2 : t ≤ now + fuel) :
    runTicks (some t) now fuel = .ok t := by
  induction fuel generalizing now with
  | zero =>
    obtain rfl : t = now := by omega
    simp [runTicks]
  | succ f ih =>
    by_cases he : t = now
    · subst he
      simp [runTicks]
    · simp only [runTicks]
      rw [if_neg (fun hc => he (Option.some.inj hc))]
      exact ih (now + 1) (by omega) (by omega)

/-- C6: with a configured deadline, a negotiation whose engine does not reach
`Connected` in time makes `Dial` return `negotiationTimeout` (it cannot block
indefinitely: the run is total and ends at the deadline), while an in-time
connection succeeds; aborting the timed-out negotiation leaves every other
negotiation of the system untouched. -/
theorem c6_negotiation_timeout (deadline : Nat) (sys : List NegLife)
    (i j : Nat) (hj : i ≠ j) :
    dialWithDeadline deadline none = .error .negotiationTimeout ∧
    (∀ t, deadline < t →
      dialWithDeadline deadline (some t) = .error .negotiationTimeout) ∧
    (∀ t, t ≤ deadline → dialWithDeadline deadline (some t) = .ok t) ∧
    (abortOne sys i .negotiationTimeout)[j]? = sys[j]? := by
  refine ⟨runTicks_no_progress deadline 0, ?_, ?_, List.getElem?_set_ne hj⟩
  · intro t ht
    exact runTicks_too_late deadline 0 t (by omega)
  · intro t ht
    exact runTicks_in_time deadline 0 t (Nat.zero_le t) (by omega)

/-- Witness for C6: a 1-tick deadline with no engine progress. -/
theorem c6_negotiation_timeout_witness :
    dialWithDeadline 1 none = .error .negotiationTimeout ∧
    dialWithDeadline 1 (some 2) = .error .negotiationTimeout :=
  ⟨(c6_negotiation_timeout 1 [] 0 1 (by decide)).1,
   (c6_negotiation_timeout 1 [] 0 1 (by decide)).2.1 2 (by decide)⟩

/-- Witness for C4 at a concrete listener with one live negotiation and two
blocked Accept callers. -/
theorem c4_listener_close_witness :
    (listenerClose ⟨false, [NegLife.init], [], 2⟩).1.closed = true ∧
    (negLifeStep NegLife.init .cancel).outcome.isSome = true := by
  refine ⟨(c4_listener_close ⟨false, [NegLife.init], [], 2⟩).1, ?_⟩
  exact (c4_listener_close ⟨false, [NegLife.init], [], 2⟩).2.2.1
    (negLifeStep NegLife.init .cancel) (by decide)

end PeerBroker

namespace TerminalPage

/-- C9: the reconnection token is the URL's `reconnect` parameter when
present (used unchanged, no navigation happens), otherwise the freshly
generated UUIDv4; in the latter case the URL is rewritten in place (history
replace, not push) to carry the token, so a reload of the rewritten URL
reuses the same token. -/
theorem c9_reconnection_token (p fresh fresh2 : String) :
    reconnectionToken ⟨some p⟩ fresh = p ∧
    updateReconnectEffect ⟨some p⟩ (reconnectionToken ⟨some p⟩ fresh) = none ∧
    reconnectionToken ⟨none⟩ fresh = fresh ∧
    updateReconnectEffect ⟨none⟩ (reconnectionToken ⟨none⟩ fresh) =
      some ⟨fresh, true⟩ ∧
    reconnectionToken
      (applyNav ⟨none⟩
        (updateReconnectEffect ⟨none⟩ (reconnectionToken ⟨none⟩ fresh)))
      fresh2 = fresh := by
  refine ⟨rfl, ?_, rfl, ?_, ?_⟩ <;>
    simp [updateReconnectEffect, reconnectionToken, applyNav]

/-- C10: stdin is disabled when a connection attempt begins and by the
websocket error and close handlers, and re-enabled only by the open handler;
hence along any event trace after a connection attempt, stdin being enabled
means an open event occurred and only message events followed it. -/
theorem c10_stdin_gating (isWindows : Bool) (t : TermOptions) :
    (connectStart t).disableStdin = true ∧
    (∀ u : TermOptions,
      (handleWSEvent isWindows u .wsError).disableStdin = true ∧
      (handleWSEvent isWindows u .wsClose).disableStdin = true) ∧
    (∀ (u : TermOptions) (e : WSEvent),
      (handleWSEvent isWindows u e).disableStdin = false →
      e = .wsOpen ∨ (e = .wsMessage ∧ u.disableStdin = false)) ∧
    (∀ es : List WSEvent,
      (es.foldl (handleWSEvent isWindows) (connectStart t)).disableStdin =
          false →
      ∃ es1 es2, es = es1 ++ .wsOpen :: es2 ∧
        ∀ e ∈ es2, e.isMessage = true) := by
  refine ⟨rfl, fun u => ⟨rfl, rfl⟩, ?_, ?_⟩
  · intro u e h
    cases e with
    | wsOpen => exact Or.inl rfl
    | wsError => simp [handleWSEvent] at h
    | wsClose => simp [handleWSEvent] at h
    | wsMessage => exact Or.inr ⟨rfl, h⟩
  · intro es
    induction es using List.reverseRecOn with
    | nil => intro h; simp [connectStart] at h
    | append_singleton es e ih =>
      intro h
      rw [List.foldl_append, List.foldl_cons, List.foldl_nil] at h
      cases e with
      | wsOpen =>
        exact ⟨es, [], rfl, by simp⟩
      | wsError => simp [handleWSEvent] at h
      | wsClose => simp [handleWSEvent] at h
      | wsMessage =>
        obtain ⟨es1, es2, heq, hall⟩ := ih h
        refine ⟨es1, es2 ++ [.wsMessage], by rw [heq]; simp, ?_⟩
        intro x hx
        rcases List.mem_append.mp hx with hx | hx
        · exact hall x hx
        · simp only [List.mem_singleton] at hx
          subst hx
          rfl

/-- Witness for C10 at a concrete event trace. -/
theorem c10_stdin_gating_witness :
    ∃ es1 es2, [WSEvent.wsOpen] = es1 ++ WSEvent.wsOpen :: es2 ∧
      ∀ e ∈ es2, e.isMessage = true :=
  (c10_stdin_gating false ⟨false, false⟩).2.2.2 [WSEvent.wsOpen] rfl

end TerminalPage
